import Mathlib

/-!
Verification of the boop HTTP load generator: a shallow embedding of the
worker loop (worker.go), the JitterTicker primitive, and the result
accumulator with its statistical summarization, together with theorems about
the properties the specification states for them.

Durations (Go time.Duration) are modelled as nanosecond counts; status codes
and byte counts (Go int, int64) as integers. Go channels relevant to the
claims are modelled explicitly: the close-twice panic of the stop channel,
and the ticker loop as a state machine over its select events.
-/

namespace Boop

/-! ## Data model: record (one request outcome) -/

/-- One completed (or failed) request attempt, mirroring Go struct record:
latency time.Duration (nanoseconds), status int, size int64, failed bool,
errMsg string. The Go zero value has all fields zero/empty/false. -/
structure Record where
  latency : Nat
  status : Int
  size : Int
  failed : Bool
  errMsg : String
deriving DecidableEq, Repr

/-! ## Worker loop (worker.go)

Each iteration of the for-range loop first acquires one job token from
jobCh, then checks ctx.Done, then (when a limiter is present) waits on the
limiter racing ctx.Done, then executes the HTTP request and records exactly
one Record. The environment of one iteration fixes the outcome of every
nondeterministic event of that iteration. -/

/-- Outcome of client.Do for one request: a network-level error, or a
response carrying a status code, with the number of bytes drained from the
body. -/
inductive HttpOutcome where
  | fail (msg : String)
  | resp (status : Int) (size : Int)
deriving DecidableEq, Repr

/-- The nondeterministic events of one worker-loop iteration: whether
ctx.Done is ready at the check after the token is acquired, whether ctx.Done
wins the select against the limiter, the result of client.Do, and the
elapsed time measured for a successful call. -/
structure IterEnv where
  ctxDoneAtCheck : Bool
  ctxDoneAtLimiter : Bool
  outcome : HttpOutcome
  elapsed : Nat
deriving DecidableEq, Repr

/-- One iteration of the worker loop body, after a token has been acquired
from jobCh. none means the worker returned (cancellation); some rec means
the iteration added rec to the result set. Mirrors worker.go lines 26-77:
on error, the zero-valued rec gets failed=true and errMsg set (status stays
0); on a response, latency, status and size are filled and failed stays
false. -/
def workerIter (hasLimiter : Bool) (env : IterEnv) : Option Record :=
  if env.ctxDoneAtCheck then none
  else if hasLimiter && env.ctxDoneAtLimiter then none
  else some (match env.outcome with
    | .fail msg => { latency := 0, status := 0, size := 0, failed := true, errMsg := msg }
    | .resp st n => { latency := env.elapsed, status := st, size := n, failed := false, errMsg := "" })

/-- The records a worker adds across its run, given the per-iteration
environments in the order tokens are delivered to it. The run ends early at
the first iteration that returns (cancellation), leaving later tokens
unacquired. -/
def workerRun (hasLimiter : Bool) : List IterEnv → List Record
  | [] => []
  | env :: rest =>
    match workerIter hasLimiter env with
    | none => []
    | some rec => rec :: workerRun hasLimiter rest

/-- Number of job tokens the worker acquires from jobCh across its run: one
per iteration entered, including the final iteration when the worker exits
by cancellation (the for-range receive happens before the ctx check). -/
def tokensConsumed (hasLimiter : Bool) : List IterEnv → Nat
  | [] => 0
  | env :: rest =>
    match workerIter hasLimiter env with
    | none => 1
    | some _ => 1 + tokensConsumed hasLimiter rest

/-- Whether the worker run ended by cancellation (some iteration returned
without recording) rather than by the job channel being exhausted. -/
def workerExitedEarly (hasLimiter : Bool) : List IterEnv → Bool
  | [] => false
  | env :: rest =>
    match workerIter hasLimiter env with
    | none => true
    | some _ => workerExitedEarly hasLimiter rest

/-! ## JitterTicker

Go struct with a tick channel C, an unbuffered stop channel, and the bounds
min = d - jitter, max = d + jitter. Stop() executes close(jt.stop); in Go,
closing an already-closed channel panics, which we model with Except. The
background loop is a select over the stop channel and the current timer; its
channel-level behaviour is modelled as a state machine below. -/

/-- State of a Go channel as far as close is concerned. -/
inductive ChanState where
  | opened
  | closed
deriving DecidableEq, Repr

/-- close(ch): closing an already-closed channel panics. -/
def closeChan : ChanState → Except String ChanState
  | .opened => .ok .closed
  | .closed => .error "close of closed channel"

/-- The JitterTicker struct fields relevant to the claims: the stop channel
state and the interval bounds (nanoseconds, as Int since they are Go
time.Duration values computed by subtraction). -/
structure JitterTicker where
  stop : ChanState
  min : Int
  max : Int
deriving DecidableEq, Repr

/-- NewJitterTicker(d, jitter): min := d - jitter, max := d + jitter, fresh
(open) stop channel. -/
def NewJitterTicker (d jitter : Int) : JitterTicker :=
  { stop := .opened, min := d - jitter, max := d + jitter }

/-- rand.Int63n(n): panics when n ≤ 0, otherwise returns a value in [0, n).
The nondeterministic draw is supplied as a natural number and reduced mod n;
every value of [0, n) is reachable this way and no other. -/
def int63n (n : Int) (draw : Nat) : Except String Int :=
  if n ≤ 0 then .error "invalid argument to Int63n"
  else .ok ((draw : Int) % n)

/-- JitterTicker.nextInterval: delta := max - min; min + rand.Int63n(delta). -/
def JitterTicker.nextInterval (jt : JitterTicker) (draw : Nat) : Except String Int :=
  (int63n (jt.max - jt.min) draw).map (fun r => jt.min + r)

/-- JitterTicker.Stop(): close(jt.stop). The tick channel C is not closed. -/
def JitterTicker.Stop (jt : JitterTicker) : Except String JitterTicker :=
  (closeChan jt.stop).map (fun s => { jt with stop := s })

/-! ### The ticker loop as a state machine

JitterTicker.loop is, per iteration, a select between the stop channel and
the channel of the current timer t. A Go timer fires at most once; the code
arms a fresh timer only in the branch where the send on jt.C succeeds. -/

/-- State of the loop goroutine: whether it is still running (has not
returned), and whether the current timer t can still fire (a timer delivers
on its channel exactly once; after that fire, and absent a NewTimer, the
select case for t.C blocks forever). -/
structure LoopState where
  running : Bool
  timerLive : Bool
deriving DecidableEq, Repr

/-- An event resolving one select iteration of the loop: the stop channel
became receivable (after close), or the timer fired, with the inner
non-blocking send succeeding exactly when a receiver is ready on jt.C. -/
inductive LoopEvent where
  | stopRecv
  | timerFire (receiverReady : Bool)
deriving DecidableEq, Repr

/-- State right after go jt.loop() starts: the loop runs and the timer
created by time.NewTimer(jt.nextInterval()) is armed. -/
def loopInit : LoopState := { running := true, timerLive := true }

/-- One select iteration of JitterTicker.loop. Returns the successor state
and whether a tick was delivered on jt.C. Mirrors the source: on stop, the
loop returns; on a timer fire with a ready receiver, the tick is sent and a
new timer is armed; on a timer fire with no ready receiver, the default
branch skips the tick and the (now spent) timer is left in place. A fire
event for a spent timer cannot occur and leaves the state unchanged, as does
any event once the loop has returned. -/
def loopStep (s : LoopState) (e : LoopEvent) : LoopState × Bool :=
  if !s.running then (s, false)
  else match e with
    | .stopRecv => ({ running := false, timerLive := s.timerLive }, false)
    | .timerFire ready =>
      if !s.timerLive then (s, false)
      else if ready then ({ running := true, timerLive := true }, true)
      else ({ running := true, timerLive := false }, false)

/-- Run the loop over a sequence of events, counting delivered ticks. -/
def loopRun (s : LoopState) : List LoopEvent → LoopState × Nat
  | [] => (s, 0)
  | e :: es =>
    let p := loopStep s e
    let q := loopRun p.1 es
    (q.1, (if p.2 then 1 else 0) + q.2)

/-! ## Result accounting (resultSet, add, summarize) -/

/-- The resultSet struct: the (mutex-protected) list of records plus run
start/end timestamps (nanoseconds since an arbitrary origin). The mutex
itself appears in the concurrency model below as atomicity of add. -/
structure ResultSet where
  records : List Record
  start : Nat
  endTime : Nat
deriving DecidableEq, Repr

/-- resultSet.add: records = append(records, rec), executed atomically under
the mutex. -/
def ResultSet.add (r : ResultSet) (rec : Record) : ResultSet :=
  { r with records := r.records ++ [rec] }

/-- One millisecond (1 * time.Millisecond) in nanoseconds, the floor for the
histogram bin size. -/
def millisecond : Nat := 1000000

/-- The for-range loop of summarize over r.records: separates failed from
successful records, collecting (in traversal order) the records read, the
latencies of the successful ones, the total bytes, and the failure count. -/
def scanRecords : List Record → List Record × List Nat × Int × Nat
  | [] => ([], [], 0, 0)
  | rec :: rest =>
    let s := scanRecords rest
    if rec.failed then (rec :: s.1, s.2.1, s.2.2.1, s.2.2.2 + 1)
    else (rec :: s.1, rec.latency :: s.2.1, s.2.2.1 + rec.size, s.2.2.2)

/-- Insertion step of the ascending sort. -/
def insertSorted (x : Nat) : List Nat → List Nat
  | [] => [x]
  | y :: ys => if x ≤ y then x :: y :: ys else y :: insertSorted x ys

/-- slices.SortFunc(latencies, cmp.Compare): ascending sort of the latency
copy. Durations compare as naturals, so any comparison sort yields this
list; it is modelled by structural insertion sort. -/
def sortLatencies : List Nat → List Nat
  | [] => []
  | x :: xs => insertSorted x (sortLatencies xs)

/-- Go int(x) conversion from float64: truncation toward zero, modelled on
rationals. -/
def goTrunc (q : ℚ) : Int := if q < 0 then ⌈q⌉ else ⌊q⌋

/-- The index clamp of the pct closure: if idx >= len, idx = len - 1. -/
def clampIdx (len : Nat) (idx : Int) : Int :=
  if idx ≥ (len : Int) then (len : Int) - 1 else idx

/-- The pct closure of summarize: nearest-rank percentile over the
ascending-sorted successful latencies. idx := int(float64(len)*p + .5),
clamped to len - 1, then latencies[idx]. The float argument and arithmetic
are modelled on rationals; truncation toward zero and the index clamp are
goTrunc and clampIdx. -/
def pct (latencies : List Nat) (p : ℚ) : Nat :=
  if latencies.length = 0 then 0
  else latencies.getD
    (clampIdx latencies.length (goTrunc ((latencies.length : ℚ) * p + 1/2))).toNat 0

/-- Histogram bin index of one latency: (lat - minLatency) / binSize, with
the Go comparison binIdx >= histoBins clamping to histoBins - 1 = 10. -/
def binIndex (minL binSize lat : Nat) : Nat :=
  let i := (lat - minL) / binSize
  if i ≥ 11 then 10 else i

/-- bins[idx]++ on a bin vector. -/
def incAt : List Nat → Nat → List Nat
  | [], _ => []
  | b :: bs, 0 => (b + 1) :: bs
  | b :: bs, n + 1 => b :: incAt bs n

/-- The histogram loop of summarize: 11 bins, each successful latency
incrementing the bin at its clamped index. -/
def histo (minL binSize : Nat) (lats : List Nat) : List Nat :=
  lats.foldl (fun bins lat => incAt bins (binIndex minL binSize lat)) (List.replicate 11 0)

/-- The statistics summarize computes and prints when there is at least one
record and at least one success. The printed percentile table is pct applied
to the stored sorted latencies at 0.10/0.25/0.50/0.75/0.90/0.95/0.99. -/
structure SummaryStats where
  total : Nat
  successful : Nat
  failedCount : Nat
  latencies : List Nat
  bytesTotal : Int
  minLatency : Nat
  maxLatency : Nat
  mean : Nat
  bins : List Nat
deriving DecidableEq, Repr

/-- Outcome of summarize: the explicit no-records path, the explicit
all-failed path, or the computed statistics. -/
inductive Summary where
  | noRecords
  | allFailed
  | stats (s : SummaryStats)
deriving DecidableEq, Repr

/-- resultSet.summarize as a state transformer: the Summary it produces and
the resultSet it leaves behind (the records as re-emitted by the read-only
traversal; latencies are sorted on the separately collected list, never on
the stored records). Mirrors the source order: the total==0 check, the
separation loop, slices.SortFunc on the latencies copy, the successful==0
check, then min/max/mean, the percentile table, and the histogram with bin
size (max-min)/10 floored at 1ms. -/
def summarizeProg (r : ResultSet) : Summary × ResultSet :=
  let total := r.records.length
  let s := scanRecords r.records
  let out : ResultSet := { records := s.1, start := r.start, endTime := r.endTime }
  if total = 0 then (.noRecords, out)
  else
    let latencies := sortLatencies s.2.1
    let bytesTotal := s.2.2.1
    let failedCount := s.2.2.2
    let successful := latencies.length
    if successful = 0 then (.allFailed, out)
    else
      let minLatency := latencies.headD 0
      let maxLatency := latencies.getLastD 0
      let mean := latencies.sum / successful
      let binSize0 := (maxLatency - minLatency) / 10
      let binSize := if binSize0 = 0 then millisecond else binSize0
      (.stats { total := total, successful := successful, failedCount := failedCount,
                latencies := latencies, bytesTotal := bytesTotal,
                minLatency := minLatency, maxLatency := maxLatency, mean := mean,
                bins := histo minLatency binSize latencies }, out)

/-- The Summary computed by resultSet.summarize. -/
def summarize (r : ResultSet) : Summary := (summarizeProg r).1

/-! ## Concurrent add (C9 model)

K tasks each hold a private queue of records to add; a schedule is the order
in which the mutex serializes their add calls. Each effective step pops one
record from one task and appends it atomically. -/

/-- One serialized add: task i (if it still has pending records) appends its
next record to the shared resultSet. A step naming a finished or nonexistent
task changes nothing. -/
def schedStep (st : List (List Record) × ResultSet) (i : Nat) :
    List (List Record) × ResultSet :=
  match st.1.getD i [] with
  | [] => st
  | rec :: q => (st.1.set i q, st.2.add rec)

/-- Run a schedule of serialized adds from a starting state. -/
def runSched (st : List (List Record) × ResultSet) : List Nat → List (List Record) × ResultSet
  | [] => st
  | i :: sched => runSched (schedStep st i) sched

/-! ## Helper lemmas -/

/-- A loop that has returned never delivers another tick and never resumes. -/
theorem loopRun_stopped (s : LoopState) (evs : List LoopEvent) (hs : s.running = false) :
    (loopRun s evs).1.running = false ∧ (loopRun s evs).2 = 0 := by
  induction evs generalizing s with
  | nil => simpa [loopRun]
  | cons e es ih =>
    have hstep : loopStep s e = (s, false) := by simp [loopStep, hs]
    simpa [loopRun, hstep] using ih s hs

/-- Once the current timer is spent and no new timer has been armed, the
loop never delivers another tick, whatever events follow. -/
theorem loopRun_timer_dead (s : LoopState) (evs : List LoopEvent) (hs : s.timerLive = false) :
    (loopRun s evs).2 = 0 := by
  induction evs generalizing s with
  | nil => simp [loopRun]
  | cons e es ih =>
    cases hr : s.running with
    | true =>
      cases e with
      | stopRecv =>
        have hstep : loopStep s .stopRecv
            = ({ running := false, timerLive := s.timerLive }, false) := by
          simp [loopStep, hr]
        simpa [loopRun, hstep] using ih ⟨false, s.timerLive⟩ hs
      | timerFire ready =>
        have hstep : loopStep s (.timerFire ready) = (s, false) := by
          simp [loopStep, hr, hs]
        simpa [loopRun, hstep] using ih s hs
    | false =>
      have hstep : loopStep s e = (s, false) := by
        simp [loopStep, hr]
      simpa [loopRun, hstep] using ih s hs

/-! ## Claims -/

/-- C1: the claim states that a worker never consumes a job token without
recording an outcome for it, the only exception being exit by cancellation
before a token is acquired. In the code the cancellation check runs after
the for-range receive, so a canceled worker consumes the token it just
acquired and returns without recording: with one token and ctx.Done ready at
the check, one token is consumed and no record is added. -/
theorem worker_token_without_record :
    ¬ (tokensConsumed false [⟨true, false, .fail "context canceled", 0⟩]
        = (workerRun false [⟨true, false, .fail "context canceled", 0⟩]).length) := by
  decide

/-- C1 (amended): each loop iteration consumes exactly one job token and
adds exactly one Record, except that an exit by cancellation (which in this
code happens only after a token is acquired: at the context check or while
awaiting the limiter) drops exactly the one token acquired in that final
iteration; so the tokens consumed equal the records added, plus one when the
worker exited early. -/
theorem worker_tokens_eq_records_plus_cancel (hasLimiter : Bool) (tr : List IterEnv) :
    tokensConsumed hasLimiter tr =
      (workerRun hasLimiter tr).length
        + (if workerExitedEarly hasLimiter tr then 1 else 0) := by
  induction tr with
  | nil => simp [tokensConsumed, workerRun, workerExitedEarly]
  | cons env rest ih =>
    cases h : workerIter hasLimiter env with
    | none => simp [tokensConsumed, workerRun, workerExitedEarly, h]
    | some rec =>
      simp only [tokensConsumed, workerRun, workerExitedEarly, h, List.length_cons, ih]
      omega

/-- C2: the claim states that a second call to Stop() does not fault. Stop()
executes close(jt.stop), and closing an already-closed channel panics: on
any ticker, Stop() followed by Stop() panics with "close of closed
channel". -/
theorem stop_twice_panics :
    ((NewJitterTicker 10 3).Stop.bind JitterTicker.Stop)
      = .error "close of closed channel" := rfl

/-- C2 (amended): Stop() is single-use, not idempotent: the first Stop() on
a fresh ticker succeeds, closing the stop channel, and once the loop
receives the stop signal it returns and no further tick is ever emitted; but
a second call to Stop() panics on the double close, so it is harmful. -/
theorem stop_once_silences (d jitter : Int) (s : LoopState) (evs : List LoopEvent) :
    (NewJitterTicker d jitter).Stop
        = .ok { stop := .closed, min := d - jitter, max := d + jitter }
      ∧ (loopStep s .stopRecv).1.running = false
      ∧ (loopRun (loopStep s .stopRecv).1 evs).2 = 0 := by
  have hstop : (loopStep s .stopRecv).1.running = false := by
    cases hr : s.running with
    | true => simp [loopStep, hr]
    | false => simp [loopStep, hr]
  exact ⟨rfl, hstop, (loopRun_stopped _ evs hstop).2⟩

/-- C3: the spec states that a tick finding no ready receiver is dropped and
emission continues, a next tick always being scheduled before stop. In the
code the default branch of the inner select does not arm a new timer, so
after one dropped tick the loop is in a reachable, still-running state whose
timer is spent, and no event sequence whatsoever produces another tick: the
ticker is permanently silent. This contradicts the documented skip-one-tick
intent. -/
theorem dropped_tick_stalls_loop (evs : List LoopEvent) :
    (loopStep loopInit (.timerFire false)).1 = { running := true, timerLive := false }
      ∧ (loopStep loopInit (.timerFire false)).2 = false
      ∧ (loopRun (loopStep loopInit (.timerFire false)).1 evs).2 = 0 :=
  ⟨rfl, rfl, loopRun_timer_dead _ evs rfl⟩

/-- C4: the claim states that for every interval > 0 and 0 ≤ jitter <
interval, computing nextInterval never faults. With jitter = 0 the delta
max - min is 0, and rand.Int63n panics on a non-positive bound: the very
first nextInterval of NewJitterTicker(10, 0) faults. -/
theorem nextInterval_faults_at_zero_jitter :
    (NewJitterTicker 10 0).nextInterval 0 = .error "invalid argument to Int63n" := rfl

/-- C4 (amended): for every interval d and jitter with 0 < jitter < d, every
draw yields a scheduled inter-tick duration in [d - jitter, d + jitter)
without faulting. -/
theorem nextInterval_in_range (d jitter : Int) (draw : Nat)
    (h1 : 0 < jitter) (h2 : jitter < d) :
    ∃ r, (NewJitterTicker d jitter).nextInterval draw = .ok r
      ∧ d - jitter ≤ r ∧ r < d + jitter := by
  have hdelta : (NewJitterTicker d jitter).max - (NewJitterTicker d jitter).min
      = 2 * jitter := by
    simp only [NewJitterTicker]
    ring
  have hpos : (0 : Int) < 2 * jitter := by omega
  have hmod0 : 0 ≤ (draw : Int) % (2 * jitter) := Int.emod_nonneg _ (by omega)
  have hmod1 : (draw : Int) % (2 * jitter) < 2 * jitter := Int.emod_lt_of_pos _ hpos
  refine ⟨(d - jitter) + (draw : Int) % (2 * jitter), ?_, by omega, by omega⟩
  simp only [JitterTicker.nextInterval, int63n, NewJitterTicker]
  have he : d + jitter - (d - jitter) = 2 * jitter := by ring
  rw [he, if_neg (not_le.mpr hpos)]
  rfl

/-- Witness for the amended C4 at d = 10, jitter = 3, draw = 7. -/
theorem nextInterval_in_range_witness :
    (0 : Int) < 3 ∧ (3 : Int) < 10 ∧
      ∃ r, (NewJitterTicker 10 3).nextInterval 7 = .ok r
        ∧ (10 : Int) - 3 ≤ r ∧ r < 10 + 3 :=
  ⟨by decide, by decide, nextInterval_in_range 10 3 7 (by decide) (by decide)⟩

/-- C6: for every executed job, a network-level error from client.Do yields
a record with failed = true, errMsg the error text, status 0 (and zero
latency and size); a response, whatever its status code, yields failed =
false with status the response status code, the drained byte count as size,
and the measured elapsed time as latency. -/
theorem worker_record_fields (hasLimiter : Bool) (env : IterEnv) (rec : Record)
    (h : workerIter hasLimiter env = some rec) :
    (∀ msg, env.outcome = .fail msg →
        rec.failed = true ∧ rec.errMsg = msg ∧ rec.status = 0
          ∧ rec.latency = 0 ∧ rec.size = 0)
      ∧ (∀ st n, env.outcome = .resp st n →
        rec.failed = false ∧ rec.status = st ∧ rec.size = n
          ∧ rec.latency = env.elapsed) := by
  unfold workerIter at h
  split at h
  · exact absurd h (by simp)
  · split at h
    · exact absurd h (by simp)
    · constructor
      · intro msg hm
        rw [hm] at h
        injection h with h
        subst h
        exact ⟨rfl, rfl, rfl, rfl, rfl⟩
      · intro st n hr
        rw [hr] at h
        injection h with h
        subst h
        exact ⟨rfl, rfl, rfl, rfl⟩

/-- Witness for C6: a worker iteration whose client.Do fails with "boom"
records failed = true with that message and status 0. -/
theorem worker_record_fields_witness :
    workerIter false ⟨false, false, .fail "boom", 0⟩
        = some ⟨0, 0, 0, true, "boom"⟩
      ∧ (⟨0, 0, 0, true, "boom"⟩ : Record).errMsg = "boom" :=
  ⟨rfl, ((worker_record_fields false ⟨false, false, .fail "boom", 0⟩
      ⟨0, 0, 0, true, "boom"⟩ rfl).1 "boom" rfl).2.1⟩

/-! ## Helper lemmas about the summarize traversal and the histogram -/

/-- The separation loop reads the records in order and leaves them as they
were. -/
theorem scanRecords_seen (l : List Record) : (scanRecords l).1 = l := by
  induction l with
  | nil => rfl
  | cons rec rest ih =>
    cases hf : rec.failed <;> simp [scanRecords, hf, ih]

/-- The latencies the separation loop collects are exactly those of the
non-failed records, in order. -/
theorem scanRecords_lats (l : List Record) :
    (scanRecords l).2.1 = (l.filter (fun rec => !rec.failed)).map Record.latency := by
  induction l with
  | nil => rfl
  | cons rec rest ih =>
    cases hf : rec.failed <;> simp [scanRecords, hf, ih]

/-- bins[idx]++ keeps the number of bins. -/
theorem incAt_length (l : List Nat) (n : Nat) : (incAt l n).length = l.length := by
  induction l generalizing n with
  | nil => rfl
  | cons b bs ih =>
    cases n with
    | zero => rfl
    | succ m => simp [incAt, ih]

/-- bins[idx]++ at an in-range index raises the total count by one. -/
theorem incAt_sum (l : List Nat) (n : Nat) (h : n < l.length) :
    (incAt l n).sum = l.sum + 1 := by
  induction l generalizing n with
  | nil => simp at h
  | cons b bs ih =>
    cases n with
    | zero => simp [incAt]; omega
    | succ m =>
      have hm : m < bs.length := by simpa using h
      simp [incAt, ih m hm]
      omega

/-- The clamped bin index always lands in one of the 11 bins. -/
theorem binIndex_lt (minL binSize lat : Nat) : binIndex minL binSize lat < 11 := by
  simp only [binIndex]
  split <;> omega

/-- The histogram loop, started from any 11-bin vector, adds one count per
latency and keeps 11 bins. -/
theorem histo_fold (lats : List Nat) (bins : List Nat) (minL binSize : Nat)
    (h : bins.length = 11) :
    (lats.foldl (fun b lat => incAt b (binIndex minL binSize lat)) bins).length = 11
      ∧ (lats.foldl (fun b lat => incAt b (binIndex minL binSize lat)) bins).sum
          = bins.sum + lats.length := by
  induction lats generalizing bins with
  | nil => simp [h]
  | cons lat rest ih =>
    have hlen : (incAt bins (binIndex minL binSize lat)).length = 11 := by
      rw [incAt_length]; exact h
    have hsum : (incAt bins (binIndex minL binSize lat)).sum = bins.sum + 1 :=
      incAt_sum bins _ (by rw [h]; exact binIndex_lt minL binSize lat)
    have := ih (incAt bins (binIndex minL binSize lat)) hlen
    refine ⟨by simpa using this.1, ?_⟩
    simp only [List.foldl_cons]
    rw [this.2, hsum, List.length_cons]
    omega

/-- The histogram has 11 bins and its counts sum to the number of
latencies. -/
theorem histo_spec (minL binSize : Nat) (lats : List Nat) :
    (histo minL binSize lats).length = 11
      ∧ (histo minL binSize lats).sum = lats.length := by
  have h := histo_fold lats (List.replicate 11 0) minL binSize (by simp)
  unfold histo
  refine ⟨h.1, ?_⟩
  rw [h.2]
  simp

/-- C5: summarize with zero records takes the explicit no-records path, and
summarize on a nonempty, all-failed record set takes the explicit all-failed
path; in neither case are any statistics (percentiles, histogram, mean, or a
division by the success count) computed. -/
theorem summarize_edge_paths (r : ResultSet) :
    (r.records = [] → summarize r = .noRecords)
      ∧ (r.records ≠ [] → (∀ rec ∈ r.records, rec.failed = true)
          → summarize r = .allFailed) := by
  constructor
  · intro h
    simp [summarize, summarizeProg, h]
  · intro hne hall
    have hlen : r.records.length ≠ 0 := by
      simpa [List.length_eq_zero] using hne
    have hfilter : r.records.filter (fun rec => !rec.failed) = [] := by
      rw [List.filter_eq_nil_iff]
      intro a ha
      simp [hall a ha]
    have hlats : (scanRecords r.records).2.1 = [] := by
      rw [scanRecords_lats, hfilter]
      rfl
    simp [summarize, summarizeProg, hlen, hlats, sortLatencies]

/-- Witness for C5: the empty accumulator reports no records; one failed
record reports all failed. -/
theorem summarize_edge_paths_witness :
    summarize ⟨[], 0, 0⟩ = .noRecords
      ∧ summarize ⟨[⟨0, 0, 0, true, "timeout"⟩], 0, 1⟩ = .allFailed :=
  ⟨(summarize_edge_paths ⟨[], 0, 0⟩).1 rfl,
    (summarize_edge_paths ⟨[⟨0, 0, 0, true, "timeout"⟩], 0, 1⟩).2
      (by simp) (by simp)⟩

/-- C7: whenever summarize computes statistics, the 11 histogram bin counts
sum exactly to the number of successful records: every successful latency is
assigned exactly one clamped bin index in [0, 10]. -/
theorem histogram_sums_to_successes (r : ResultSet) (s : SummaryStats)
    (h : summarize r = .stats s) :
    s.bins.length = 11 ∧ s.bins.sum = s.successful := by
  simp only [summarize, summarizeProg] at h
  split at h
  · exact absurd h (by simp)
  · split at h
    · exact absurd h (by simp)
    · simp only [Summary.stats.injEq] at h
      subst h
      exact ⟨(histo_spec _ _ _).1, (histo_spec _ _ _).2⟩

/-- Witness for C7: one successful record of latency 5ns and size 2 yields
the concrete statistics with bin vector summing to the single success. -/
theorem histogram_sums_to_successes_witness :
    ({ total := 1, successful := 1, failedCount := 0, latencies := [5],
       bytesTotal := 2, minLatency := 5, maxLatency := 5, mean := 5,
       bins := [1, 0, 0, 0, 0, 0, 0, 0, 0, 0, 0] } : SummaryStats).bins.length = 11
      ∧ ({ total := 1, successful := 1, failedCount := 0, latencies := [5],
           bytesTotal := 2, minLatency := 5, maxLatency := 5, mean := 5,
           bins := [1, 0, 0, 0, 0, 0, 0, 0, 0, 0, 0] } : SummaryStats).bins.sum
          = ({ total := 1, successful := 1, failedCount := 0, latencies := [5],
               bytesTotal := 2, minLatency := 5, maxLatency := 5, mean := 5,
               bins := [1, 0, 0, 0, 0, 0, 0, 0, 0, 0, 0] } : SummaryStats).successful :=
  histogram_sums_to_successes ⟨[⟨5, 200, 2, false, ""⟩], 0, 1⟩ _ (by decide)

/-- C10: summarize is read-only on its accumulator: the records (contents
and order), start and end timestamps are exactly as before the call; the
sort happens on the separately collected latency list, never on the stored
records. -/
theorem summarize_is_readonly (r : ResultSet) : (summarizeProg r).2 = r := by
  have h : ({ records := (scanRecords r.records).1,
              start := r.start,
              endTime := r.endTime } : ResultSet) = r := by
    rw [scanRecords_seen]
  simp only [summarizeProg]
  split
  · exact h
  · split
    · exact h
    · exact h

/-! ## Percentile helper lemmas (C8) -/

/-- Truncation toward zero agrees with floor on non-negative arguments. -/
theorem goTrunc_of_nonneg (q : ℚ) (h : 0 ≤ q) : goTrunc q = ⌊q⌋ := by
  simp [goTrunc, not_lt.mpr h]

/-- The index clamp is monotone. -/
theorem clampIdx_mono (len : Nat) (i j : Int) (h : i ≤ j) :
    clampIdx len i ≤ clampIdx len j := by
  simp only [clampIdx]
  split <;> split <;> omega

/-- The clamped index stays below the length. -/
theorem clampIdx_lt (len : Nat) (i : Int) :
    clampIdx len i < (len : Int) := by
  simp only [clampIdx]
  split <;> omega

/-- The clamped index stays non-negative for non-negative input. -/
theorem clampIdx_nonneg (len : Nat) (i : Int) (h0 : 0 ≤ i) (h1 : 1 ≤ len) :
    0 ≤ clampIdx len i := by
  simp only [clampIdx]
  split <;> omega

/-- Indexing an ascending-sorted list is monotone in the index. -/
theorem getD_mono_of_sorted (l : List Nat) (hs : List.Sorted (· ≤ ·) l)
    (i j : Nat) (hij : i ≤ j) (hj : j < l.length) :
    l.getD i 0 ≤ l.getD j 0 := by
  have hi : i < l.length := lt_of_le_of_lt hij hj
  rw [List.getD_eq_getElem l 0 hi, List.getD_eq_getElem l 0 hj]
  have h := hs.rel_get_of_le (a := ⟨i, hi⟩) (b := ⟨j, hj⟩) hij
  simpa [List.get_eq_getElem] using h

/-- C8: the percentile helper is monotonic: over a fixed non-empty
ascending-sorted latency sequence, and percentile arguments 0 ≤ p1 < p2, the
nearest-rank value at p1 is at most the one at p2. -/
theorem pct_monotone (lats : List Nat) (p1 p2 : ℚ)
    (hs : List.Sorted (· ≤ ·) lats) (hne : lats ≠ [])
    (h0 : 0 ≤ p1) (h12 : p1 < p2) :
    pct lats p1 ≤ pct lats p2 := by
  have hn : lats.length ≠ 0 := by simpa [List.length_eq_zero] using hne
  have hn1 : 1 ≤ lats.length := Nat.one_le_iff_ne_zero.mpr hn
  have hc0 : (0 : ℚ) ≤ (lats.length : ℚ) := by positivity
  have hq1 : (0 : ℚ) ≤ (lats.length : ℚ) * p1 + 1/2 := by
    have := mul_nonneg hc0 h0
    linarith
  have hq2 : (0 : ℚ) ≤ (lats.length : ℚ) * p2 + 1/2 := by
    have := mul_nonneg hc0 (h0.trans h12.le)
    linarith
  have hqle : (lats.length : ℚ) * p1 + 1/2 ≤ (lats.length : ℚ) * p2 + 1/2 := by
    have := mul_le_mul_of_nonneg_left h12.le hc0
    linarith
  have hfle : ⌊(lats.length : ℚ) * p1 + 1/2⌋ ≤ ⌊(lats.length : ℚ) * p2 + 1/2⌋ :=
    Int.floor_le_floor hqle
  have hf0 : 0 ≤ ⌊(lats.length : ℚ) * p1 + 1/2⌋ := Int.floor_nonneg.mpr hq1
  have hcm := clampIdx_mono lats.length _ _ hfle
  have hclo := clampIdx_nonneg lats.length _ hf0 hn1
  have hchi := clampIdx_lt lats.length ⌊(lats.length : ℚ) * p2 + 1/2⌋
  simp only [pct, if_neg hn, goTrunc_of_nonneg _ hq1, goTrunc_of_nonneg _ hq2]
  exact getD_mono_of_sorted lats hs _ _ (by omega) (by omega)

/-- Witness for C8 on the sorted list [3, 5, 9] with p1 = 1/10, p2 = 1/2. -/
theorem pct_monotone_witness :
    List.Sorted (· ≤ ·) [3, 5, 9] ∧ (0 : ℚ) ≤ 1/10 ∧ (1/10 : ℚ) < 1/2
      ∧ pct [3, 5, 9] (1/10) ≤ pct [3, 5, 9] (1/2) :=
  ⟨by decide, by norm_num, by norm_num,
    pct_monotone [3, 5, 9] (1/10) (1/2) (by decide) (by decide)
      (by norm_num) (by norm_num)⟩

/-! ## Concurrent add lemmas (C9) -/

/-- Removing the head of the i-th queue is, up to permutation, removing one
occurrence of that record from the flattened queues. -/
theorem flatten_set_perm (qs : List (List Record)) (i : Nat) (rec : Record)
    (q : List Record) (h : qs.getD i [] = rec :: q) :
    (rec :: (qs.set i q).flatten).Perm qs.flatten := by
  induction qs generalizing i with
  | nil => simp at h
  | cons hd tl ih =>
    cases i with
    | zero =>
      rw [List.getD_cons_zero] at h
      subst h
      simp only [List.set_cons_zero, List.flatten_cons, List.cons_append]
      exact List.Perm.refl _
    | succ n =>
      rw [List.getD_cons_succ] at h
      simp only [List.set_cons_succ, List.flatten_cons]
      exact List.perm_middle.symm.trans ((ih n h).append_left hd)

/-- Every serialized schedule preserves, up to permutation, the records in
flight plus the records already accumulated. -/
theorem runSched_perm (sched : List Nat) (st : List (List Record) × ResultSet) :
    ((runSched st sched).2.records ++ (runSched st sched).1.flatten).Perm
      (st.2.records ++ st.1.flatten) := by
  induction sched generalizing st with
  | nil => exact List.Perm.refl _
  | cons i sched ih =>
    refine (ih (schedStep st i)).trans ?_
    unfold schedStep
    split
    · exact List.Perm.refl _
    · rename_i rec q hq
      simp only [ResultSet.add, List.append_assoc, List.singleton_append]
      exact (flatten_set_perm st.1 i rec q hq).append_left st.2.records

/-- K queues of M records each flatten to K*M records. -/
theorem sum_map_length_const (queues : List (List Record)) (M : Nat)
    (hM : ∀ q ∈ queues, q.length = M) :
    (queues.map List.length).sum = queues.length * M := by
  induction queues with
  | nil => simp
  | cons q qs ih =>
    simp only [List.map_cons, List.sum_cons, List.length_cons]
    rw [hM q (by simp), ih (fun x hx => hM x (by simp [hx]))]
    ring

/-- C9: K tasks adding M records each through the mutex-serialized add, in
any serialization order that drains every task, leave exactly K*M records in
the accumulator, and those records are exactly the queued records (no loss,
no duplication): the outcome is a permutation of all the queued records. -/
theorem concurrent_add_exact (K M : Nat) (queues : List (List Record))
    (sched : List Nat)
    (hK : queues.length = K) (hM : ∀ q ∈ queues, q.length = M)
    (hdone : ∀ q ∈ (runSched (queues, ⟨[], 0, 0⟩) sched).1, q = []) :
    (runSched (queues, ⟨[], 0, 0⟩) sched).2.records.length = K * M
      ∧ ((runSched (queues, ⟨[], 0, 0⟩) sched).2.records).Perm queues.flatten := by
  have hperm := runSched_perm sched (queues, ⟨[], 0, 0⟩)
  have hflat : (runSched (queues, ⟨[], 0, 0⟩) sched).1.flatten = [] :=
    List.flatten_eq_nil_iff.mpr hdone
  rw [hflat, List.append_nil] at hperm
  simp only [List.nil_append] at hperm
  have hlen : queues.flatten.length = K * M := by
    rw [List.length_flatten, sum_map_length_const queues M hM, hK]
  exact ⟨hperm.length_eq.trans hlen, hperm⟩

/-- Witness for C9: two tasks with one record each, drained by the schedule
[0, 1], leave exactly 2*1 records, a permutation of the queued records. -/
theorem concurrent_add_exact_witness :
    (runSched ([[⟨1, 200, 0, false, ""⟩], [⟨2, 0, 0, true, "x"⟩]],
        ⟨[], 0, 0⟩) [0, 1]).2.records.length = 2 * 1
      ∧ ((runSched ([[⟨1, 200, 0, false, ""⟩], [⟨2, 0, 0, true, "x"⟩]],
          ⟨[], 0, 0⟩) [0, 1]).2.records).Perm
        ([[⟨1, 200, 0, false, ""⟩], [⟨2, 0, 0, true, "x"⟩]] : List (List Record)).flatten :=
  concurrent_add_exact 2 1 [[⟨1, 200, 0, false, ""⟩], [⟨2, 0, 0, true, "x"⟩]]
    [0, 1] rfl (by decide) (by decide)

end Boop
